import Mathlib

/-!
Verification of the syz-stress driver
(`tools/syz-stress/stress.go` of the syzkaller tree).

The Go source is shallowly embedded: each function of the file becomes a
Lean definition over explicit parameters standing for the external
collaborators (RNG draws, executor results, host probes).  Side effects
are recorded as event traces so that ordering and counting claims can be
stated and decided.
-/

namespace SyzStress

/-- A stored corpus record (`db.Record.Val`, raw bytes). -/
abbrev Record := List Nat

/-- An opaque deserialized program held in the corpus. -/
abbrev CorpusProg := List Nat

/-- `const programLength = 30` from stress.go. -/
def programLength : Nat := 30

/-- Identity of the program object an operation acts on inside one worker
iteration: a freshly generated program, a private clone of the corpus
entry at `idx`, or the shared corpus slice entry at `idx` itself. -/
inductive ProgSrc
  | fresh
  | clonedFrom (idx : Nat)
  | corpusEntry (idx : Nat)
deriving DecidableEq, Repr

/-- Observable operations of one worker-loop iteration. -/
inductive Event
  | genEv (len : Nat)
  | cloneEv (idx : Nat)
  | mutateEv (src : ProgSrc)
  | execEv (src : ProgSrc)
deriving DecidableEq, Repr

/-- The branch condition of the worker loop, exactly as written in the
source: `*flagGenerate && len(corpus) == 0 || i%4 != 0`, with Go
precedence (`&&` binds tighter than `||`). -/
def genBranchTaken (flagGenerate : Bool) (corpusLen i : Nat) : Bool :=
  (flagGenerate && corpusLen == 0) || i % 4 != 0

/-- One iteration of the worker loop (stress.go lines 110-124) as an
event trace.  `pick` stands for the worker-private RNG draw
`rnd.Intn(len(corpus))` used only in the mutate branch. -/
def workerIter (flagGenerate : Bool) (corpusLen i pick : Nat) : List Event :=
  if genBranchTaken flagGenerate corpusLen i then
    [Event.genEv programLength, Event.execEv ProgSrc.fresh,
     Event.mutateEv ProgSrc.fresh, Event.execEv ProgSrc.fresh]
  else
    [Event.cloneEv pick,
     Event.mutateEv (ProgSrc.clonedFrom pick), Event.execEv (ProgSrc.clonedFrom pick),
     Event.mutateEv (ProgSrc.clonedFrom pick), Event.execEv (ProgSrc.clonedFrom pick)]

/-- `true` for an event that mutates a shared corpus slice entry in
place (which the source never does: it clones first). -/
def mutatesSharedEntry : Event → Bool
  | Event.mutateEv (ProgSrc.corpusEntry _) => true
  | _ => false

/-- Observable steps of one call to `execute` (stress.go lines 134-153). -/
inductive ExecEvent
  | incStat
  | gateEnter
  | gateLeave
  | lockOut
  | printProg
  | unlockOut
  | envExec
  | printExecError
  | printProgramDump
  | writeOutput
deriving DecidableEq, Repr

/-- The body of `execute`, linearized.  `logProg` and `outputFlag` are the
`-logprog` and `-output` flags; `hanged` and `errFlag` are the results of
`env.Exec`.  Go `defer gate.Leave(ticket)` runs when `execute` returns,
so `gateLeave` is the last event of the trace. -/
def executeTrace (logProg outputFlag hanged errFlag : Bool) : List ExecEvent :=
  [ExecEvent.incStat]
  ++ (if logProg then
        [ExecEvent.gateEnter, ExecEvent.lockOut, ExecEvent.printProg, ExecEvent.unlockOut]
      else [])
  ++ [ExecEvent.envExec]
  ++ (if errFlag then [ExecEvent.printExecError] else [])
  ++ (if hanged || errFlag || outputFlag then [ExecEvent.printProgramDump] else [])
  ++ (if hanged || errFlag || outputFlag then [ExecEvent.writeOutput] else [])
  ++ (if logProg then [ExecEvent.gateLeave] else [])

/-- One `execute` call described by its four Boolean parameters. -/
abbrev ExecCall := Bool × Bool × Bool × Bool

/-- Trace of a batch of `execute` calls, concatenated. -/
def execBatch (calls : List ExecCall) : List ExecEvent :=
  calls.flatMap fun c => executeTrace c.1 c.2.1 c.2.2.1 c.2.2.2

/-- Value of the global counter `statExec` after a list of events:
it starts at 0 and is changed only by the atomic increment
`atomic.AddUint64(&statExec, 1)`; no event resets or decrements it. -/
def statExecAfter (events : List ExecEvent) : Nat :=
  events.foldl (fun n e => match e with | ExecEvent.incStat => n + 1 | _ => n) 0

/-- The deserialization mode passed by `readCorpus`: the source always
passes `prog.NonStrict`. -/
inductive DeserializeMode
  | strict
  | nonStrict
deriving DecidableEq, Repr

/-- The loop of `readCorpus` over `db.Records`: each record is
deserialized in non-strict mode; the first failure is `log.Fatalf`
(modelled as `none`), otherwise the programs are appended in order. -/
def deserializeAll (deserialize : Record → DeserializeMode → Option CorpusProg) :
    List Record → Option (List CorpusProg)
  | [] => some []
  | r :: rs =>
    match deserialize r DeserializeMode.nonStrict with
    | none => none
    | some p =>
      match deserializeAll deserialize rs with
      | none => none
      | some ps => some (p :: ps)

/-- `readCorpus` (stress.go lines 155-172).  `openResult` is the outcome
of `db.Open` (`none` = error, which is fatal); `deserialize` is
`target.Deserialize`.  `none` models `log.Fatalf` aborting the process. -/
def readCorpus (flagCorpus : String) (openResult : Option (List Record))
    (deserialize : Record → DeserializeMode → Option CorpusProg) :
    Option (List CorpusProg) :=
  if flagCorpus = "" then some []
  else
    match openResult with
    | none => none
    | some records => deserializeAll deserialize records

/-- The command-line flags of stress.go that the startup pipeline reads. -/
structure Flags where
  corpus : String
  procs : Nat
  generate : Bool
deriving DecidableEq, Repr

/-- Outcome of `main` before the steady state: either `log.Fatalf`
terminated the process (no worker was spawned, no executor invocation
ever occurs), or `procs` workers were spawned and the gate was
constructed with the recorded capacity. -/
inductive StartupOutcome
  | fatal (msg : String)
  | workersSpawned (procs gateCapacity : Nat)
deriving DecidableEq, Repr

/-- The startup pipeline of `main` (stress.go lines 47-101), linearized.
Each external call that can fail is a Boolean parameter
(`true` = success): `csource.ParseFeaturesFlags`, `prog.GetTarget`,
`host.Check`, `host.Setup`, `buildCallList` internals,
`ipcconfig.Default`.  The corpus is read through `readCorpus`.  The gate
is constructed exactly once, by `ipc.NewGate(2**flagProcs, nil)`, before
the workers are spawned. -/
def mainStartup (fl : Flags) (featuresOk targetOk : Bool)
    (openResult : Option (List Record))
    (deserialize : Record → DeserializeMode → Option CorpusProg)
    (hostCheckOk setupOk callListOk ipcOk : Bool) : StartupOutcome :=
  if !featuresOk then StartupOutcome.fatal "features flags"
  else if !targetOk then StartupOutcome.fatal "target"
  else
    match readCorpus fl.corpus openResult deserialize with
    | none => StartupOutcome.fatal "corpus"
    | some corpus =>
      if !fl.generate && corpus.length == 0 then
        StartupOutcome.fatal "nothing to mutate (-generate=false and no corpus)"
      else if !hostCheckOk then StartupOutcome.fatal "host check"
      else if !setupOk then StartupOutcome.fatal "host setup"
      else if !callListOk then StartupOutcome.fatal "call list"
      else if !ipcOk then StartupOutcome.fatal "ipcconfig"
      else StartupOutcome.workersSpawned fl.procs (2 * fl.procs)

/-- Modelled from the spec: the `Gate` type lives in `pkg/ipc`, which is
not under `src/`; stress.go only constructs and uses it.  Per the spec,
a Gate holds a fixed capacity and a current outstanding-ticket count;
`Enter` blocks until a ticket is available and takes one, `Leave`
releases one; the capacity never changes after construction. -/
structure GateState where
  capacity : Nat
  outstanding : Nat
deriving DecidableEq, Repr

/-- An operation on the Gate issued by some caller. -/
inductive GateOp
  | enter
  | leave
deriving DecidableEq, Repr

/-- Modelled from the spec: one completed Gate operation.  An `enter`
that finds all slots taken blocks, so it does not complete and cannot
appear in a trace of completed operations (`none`); a `leave` with no
outstanding ticket has no caller that could issue it (`none`). -/
def gateStep (s : GateState) : GateOp → Option GateState
  | GateOp.enter =>
    if s.outstanding < s.capacity then
      some { s with outstanding := s.outstanding + 1 }
    else none
  | GateOp.leave =>
    if 0 < s.outstanding then
      some { s with outstanding := s.outstanding - 1 }
    else none

/-- A trace of completed Gate operations, from any interleaving of
concurrent callers. -/
def gateRun (s : GateState) : List GateOp → Option GateState
  | [] => some s
  | op :: ops =>
    match gateStep s op with
    | none => none
    | some s' => gateRun s' ops

/-- Outcome of one worker goroutine (stress.go lines 102-125):
`ipc.MakeEnv` failing makes the goroutine call `log.Fatalf`, which
terminates the whole process (all workers); otherwise the worker loops,
and `ran` records the event trace of its first `iters` iterations
(`picks i` is the RNG draw of iteration `i`). -/
inductive WorkerOutcome
  | fatalProcess (msg : String)
  | ran (events : List Event)
deriving DecidableEq, Repr

/-- One worker goroutine: create the execution environment, then loop. -/
def workerRun (makeEnvOk flagGenerate : Bool) (corpusLen : Nat)
    (picks : Nat → Nat) (iters : Nat) : WorkerOutcome :=
  if !makeEnvOk then
    WorkerOutcome.fatalProcess "failed to create execution environment"
  else
    WorkerOutcome.ran
      ((List.range iters).flatMap fun i => workerIter flagGenerate corpusLen i (picks i))

/-- Model of Go `strings.Split(s, sep)` for a one-character separator,
on the character list of `s`: Go splits around every occurrence of the
separator and always returns at least one piece; in particular
`strings.Split("", ",")` is `[""]`. -/
def goSplitChars (sep : Char) : List Char → List (List Char)
  | [] => [[]]
  | c :: cs =>
    match goSplitChars sep cs with
    | [] => [[]]
    | piece :: rest =>
      if c = sep then [] :: piece :: rest
      else (c :: piece) :: rest

/-- Model of Go `strings.Split(s, sep)` for a one-character separator. -/
def goSplit (s : String) (sep : Char) : List String :=
  (goSplitChars sep s.data).map fun cs => String.mk cs

/-- Which of the three paths `buildCallList` (stress.go lines 175-206)
takes: the cross-OS full-set path, the detection path with the
allow-list resolution and intersection, or the detection path without
it. -/
inductive CallListPath
  | crossOS
  | allowList
  | noAllowList
deriving DecidableEq, Repr

/-- The branch structure of `buildCallList`: `if *flagOS != runtime.GOOS`
takes the full-set path; otherwise supported calls are detected and
`if len(enabled) != 0` the allow-list is resolved and intersected. -/
def buildCallListPath (flagOS goos : String) (enabled : List String) : CallListPath :=
  if flagOS ≠ goos then CallListPath.crossOS
  else if enabled.length ≠ 0 then CallListPath.allowList
  else CallListPath.noAllowList

/-- The call site in `main`:
`buildCallList(target, strings.Split(*flagSyscalls, ","))`. -/
def mainCallListPath (flagOS goos flagSyscalls : String) : CallListPath :=
  buildCallListPath flagOS goos (goSplit flagSyscalls ',')

/-! Helper lemmas shared by the claim theorems. -/

theorem statExec_foldl_eq (l : List ExecEvent) (n : Nat) :
    l.foldl (fun n e => match e with | ExecEvent.incStat => n + 1 | _ => n) n
      = n + l.count ExecEvent.incStat := by
  induction l generalizing n with
  | nil => simp
  | cons e l ih => cases e <;> simp [List.count_cons, ih] <;> omega

theorem statExecAfter_eq_count (l : List ExecEvent) :
    statExecAfter l = l.count ExecEvent.incStat := by
  simpa [statExecAfter] using statExec_foldl_eq l 0

theorem executeTrace_count_incStat :
    ∀ lp o hg er : Bool, (executeTrace lp o hg er).count ExecEvent.incStat = 1 := by
  decide

theorem executeTrace_count_envExec :
    ∀ lp o hg er : Bool, (executeTrace lp o hg er).count ExecEvent.envExec = 1 := by
  decide

theorem execBatch_count_incStat (calls : List ExecCall) :
    (execBatch calls).count ExecEvent.incStat = calls.length := by
  induction calls with
  | nil => rfl
  | cons c cs ih =>
    have h1 : execBatch (c :: cs)
        = executeTrace c.1 c.2.1 c.2.2.1 c.2.2.2 ++ execBatch cs := rfl
    rw [h1, List.count_append, executeTrace_count_incStat, ih]
    simp [Nat.add_comm]

theorem execBatch_count_envExec (calls : List ExecCall) :
    (execBatch calls).count ExecEvent.envExec = calls.length := by
  induction calls with
  | nil => rfl
  | cons c cs ih =>
    have h1 : execBatch (c :: cs)
        = executeTrace c.1 c.2.1 c.2.2.1 c.2.2.2 ++ execBatch cs := rfl
    rw [h1, List.count_append, executeTrace_count_envExec, ih]
    simp [Nat.add_comm]

theorem gateRun_bound (ops : List GateOp) (s' : GateState) :
    ∀ s : GateState, gateRun s ops = some s' → s.outstanding ≤ s.capacity →
      s'.capacity = s.capacity ∧ s'.outstanding ≤ s.capacity := by
  induction ops with
  | nil =>
    intro s h hle
    simp [gateRun] at h
    simp [← h, hle]
  | cons op ops ih =>
    intro s h hle
    cases op with
    | enter =>
      by_cases hc : s.outstanding < s.capacity
      · simp [gateRun, gateStep, hc] at h
        have := ih _ h (by show s.outstanding + 1 ≤ s.capacity; omega)
        simpa using this
      · simp [gateRun, gateStep, hc] at h
    | leave =>
      by_cases hc : 0 < s.outstanding
      · simp [gateRun, gateStep, hc] at h
        have := ih _ h (by show s.outstanding - 1 ≤ s.capacity; omega)
        simpa using this
      · simp [gateRun, gateStep, hc] at h

theorem goSplitChars_ne_nil (sep : Char) (l : List Char) : goSplitChars sep l ≠ [] := by
  induction l with
  | nil => simp [goSplitChars]
  | cons c cs ih =>
    simp only [goSplitChars]
    rcases h : goSplitChars sep cs with _ | ⟨p, rest⟩
    · simp
    · split
      · simp
      · split <;> simp

theorem deserializeAll_none (d : Record → DeserializeMode → Option CorpusProg)
    (records : List Record) (r : Record) (hr : r ∈ records)
    (hd : d r DeserializeMode.nonStrict = none) :
    deserializeAll d records = none := by
  induction records with
  | nil => cases hr
  | cons x xs ih =>
    rcases List.mem_cons.mp hr with rfl | hr'
    · simp [deserializeAll, hd]
    · cases hx : d x DeserializeMode.nonStrict <;>
        simp [deserializeAll, hx, ih hr']

/-! Claim theorems. -/

/-- C1: the spec claims that with the generate flag false (and a
non-empty corpus) every worker iteration is corpus-only mutation.
Evaluating the embedded loop at flagGenerate = false, corpus length 1,
iteration i = 1 shows the branch condition
`*flagGenerate && len(corpus) == 0 || i%4 != 0` is true and the
iteration generates a fresh program, contradicting the flag's own
documentation ("generate new programs, otherwise only mutate corpus"). -/
theorem generate_flag_ignored_at_iter_one :
    genBranchTaken false 1 1 = true ∧
    workerIter false 1 1 0 =
      [Event.genEv programLength, Event.execEv ProgSrc.fresh,
       Event.mutateEv ProgSrc.fresh, Event.execEv ProgSrc.fresh] := by
  decide

/-- C2: the generate branch is taken exactly when (generation is enabled
and the corpus is empty) or i mod 4 ≠ 0; that branch generates a fresh
program of target length 30, executes it, mutates it in place, and
executes again; and with generate = true and a non-empty corpus the
mutate-from-corpus branch is taken exactly when i mod 4 = 0. -/
theorem worker_branch_policy (gen : Bool) (corpusLen i pick : Nat) :
    (genBranchTaken gen corpusLen i = true ↔
      (gen = true ∧ corpusLen = 0) ∨ i % 4 ≠ 0) ∧
    programLength = 30 ∧
    (genBranchTaken gen corpusLen i = true →
      workerIter gen corpusLen i pick =
        [Event.genEv 30, Event.execEv ProgSrc.fresh,
         Event.mutateEv ProgSrc.fresh, Event.execEv ProgSrc.fresh]) ∧
    (0 < corpusLen → (genBranchTaken true corpusLen i = false ↔ i % 4 = 0)) := by
  refine ⟨?_, rfl, ?_, ?_⟩
  · simp [genBranchTaken]
  · intro h
    simp [workerIter, h, programLength]
  · intro hlen
    have hne : corpusLen ≠ 0 := Nat.pos_iff_ne_zero.mp hlen
    simp [genBranchTaken, hne]

/-- Witness for C2 at gen = true, corpus length 5, i = 1, pick = 2. -/
theorem worker_branch_policy_witness :
    workerIter true 5 1 2 =
      [Event.genEv 30, Event.execEv ProgSrc.fresh,
       Event.mutateEv ProgSrc.fresh, Event.execEv ProgSrc.fresh] :=
  (worker_branch_policy true 5 1 2).2.2.1 (by decide)

/-- C3 counterexample: in the trace of `execute` with logprog set (and a
clean execution), the Gate ticket is not released before the Executor is
invoked — `gate.Leave` is deferred to function return, so `gateLeave`
comes after `envExec`, refuting the claimed release-before-execution
ordering. -/
theorem gate_ticket_not_released_before_exec :
    ¬ ((executeTrace true false false false).indexOf ExecEvent.gateLeave <
       (executeTrace true false false false).indexOf ExecEvent.envExec) := by
  decide

/-- C3 amended: in every call to `execute` with the logprog flag set, the
Gate ticket is released by the deferred `gate.Leave` when `execute`
returns — after the Executor invocation and any diagnostic prints — so
`gateLeave` is the last event of the trace and follows `envExec`. -/
theorem gate_ticket_released_at_return :
    ∀ outputFlag hanged errFlag : Bool,
      (executeTrace true outputFlag hanged errFlag).getLast?
          = some ExecEvent.gateLeave ∧
      (executeTrace true outputFlag hanged errFlag).indexOf ExecEvent.envExec <
        (executeTrace true outputFlag hanged errFlag).indexOf ExecEvent.gateLeave := by
  decide

/-- C4: every call to `execute` performs exactly one increment of
`statExec` and exactly one Executor invocation; the counter starts at 0
and is changed only by those increments; hence after any interleaving
`l` of a batch of `execute` calls the counter equals the number of
Executor invocations, which is the number of calls. -/
theorem statExec_counts_executor_invocations (calls : List ExecCall)
    (l : List ExecEvent) (h : l.Perm (execBatch calls)) :
    (∀ lp o hg er : Bool,
       (executeTrace lp o hg er).count ExecEvent.incStat = 1 ∧
       (executeTrace lp o hg er).count ExecEvent.envExec = 1) ∧
    statExecAfter l = (execBatch calls).count ExecEvent.envExec ∧
    (execBatch calls).count ExecEvent.envExec = calls.length := by
  refine ⟨by decide, ?_, execBatch_count_envExec calls⟩
  rw [statExecAfter_eq_count, h.count_eq, execBatch_count_incStat,
    ← execBatch_count_envExec]

/-- Witness for C4 on a one-call batch in its original order. -/
theorem statExec_counts_executor_invocations_witness :
    statExecAfter (execBatch [(true, false, false, false)]) =
      (execBatch [(true, false, false, false)]).count ExecEvent.envExec :=
  (statExec_counts_executor_invocations [(true, false, false, false)]
    (execBatch [(true, false, false, false)]) (List.Perm.refl _)).2.1

/-- C5: in every worker iteration, every Mutate is applied either to the
freshly generated program or to the private Clone made in that
iteration — never to a shared corpus slice entry itself. -/
theorem corpus_entries_never_mutated_in_place (gen : Bool) (corpusLen i pick : Nat) :
    ∀ e ∈ workerIter gen corpusLen i pick, ∀ src, e = Event.mutateEv src →
      (src = ProgSrc.fresh ∨ src = ProgSrc.clonedFrom pick) := by
  intro e he src hsrc
  subst hsrc
  unfold workerIter at he
  split at he <;> simp at he
  · exact Or.inl he
  · exact Or.inr he

/-- Witness for C5 in the mutate branch (gen = false, corpus length 1,
i = 0, pick = 0) at the clone-mutating event. -/
theorem corpus_entries_never_mutated_in_place_witness :
    ProgSrc.clonedFrom 0 = ProgSrc.fresh ∨
    ProgSrc.clonedFrom 0 = ProgSrc.clonedFrom 0 :=
  corpus_entries_never_mutated_in_place false 1 0 0
    (Event.mutateEv (ProgSrc.clonedFrom 0)) (by decide) _ rfl

/-- C6: if generation is disabled and the loaded corpus is empty, main
never reaches the worker-spawning point (so no Executor invocation ever
occurs, as executions happen only inside spawned workers), and when the
earlier feature/target steps succeed the startup fails fatally with the
"nothing to mutate" message. -/
theorem no_generate_empty_corpus_fatal (fl : Flags) (h : fl.generate = false)
    (featuresOk targetOk hostCheckOk setupOk callListOk ipcOk : Bool)
    (openResult : Option (List Record))
    (deserialize : Record → DeserializeMode → Option CorpusProg)
    (hc : readCorpus fl.corpus openResult deserialize = some []) :
    (∀ n g, mainStartup fl featuresOk targetOk openResult deserialize
        hostCheckOk setupOk callListOk ipcOk ≠ StartupOutcome.workersSpawned n g) ∧
    (featuresOk = true → targetOk = true →
      mainStartup fl featuresOk targetOk openResult deserialize
          hostCheckOk setupOk callListOk ipcOk
        = StartupOutcome.fatal "nothing to mutate (-generate=false and no corpus)") := by
  unfold mainStartup
  rw [hc]
  cases featuresOk <;> cases targetOk <;> simp [h]

/-- Witness for C6 with generate = false, an empty corpus path, and all
earlier startup steps succeeding. -/
theorem no_generate_empty_corpus_fatal_witness :
    mainStartup ⟨"", 2, false⟩ true true none (fun _ _ => none) true true true true
      = StartupOutcome.fatal "nothing to mutate (-generate=false and no corpus)" :=
  (no_generate_empty_corpus_fatal ⟨"", 2, false⟩ rfl true true true true true true
    none (fun _ _ => none) rfl).2 rfl rfl

/-- C7: `readCorpus` returns an empty corpus (not an error) on an empty
path; on a non-empty path a failed `db.Open` is fatal; and any record
that fails non-strict deserialization makes startup fatal instead of
being skipped. -/
theorem readCorpus_error_policy (path : String)
    (openResult : Option (List Record))
    (deserialize : Record → DeserializeMode → Option CorpusProg)
    (records : List Record) (r : Record) :
    readCorpus "" openResult deserialize = some [] ∧
    (path ≠ "" → readCorpus path none deserialize = none) ∧
    (path ≠ "" → r ∈ records → deserialize r DeserializeMode.nonStrict = none →
      readCorpus path (some records) deserialize = none) := by
  refine ⟨by simp [readCorpus], ?_, ?_⟩
  · intro hp
    simp [readCorpus, hp]
  · intro hp hr hd
    simp [readCorpus, hp, deserializeAll_none deserialize records r hr hd]

/-- Witness for C7: a one-record store whose record fails to
deserialize is a fatal startup error. -/
theorem readCorpus_error_policy_witness :
    readCorpus "db" (some [[0]]) (fun _ _ => none) = none :=
  (readCorpus_error_policy "db" (some [[0]]) (fun _ _ => none) [[0]] [0]).2.2
    (by decide) (by decide) rfl

/-- C8: whenever startup spawns workers, the Gate was constructed with
capacity exactly twice the worker count; and along every trace of
completed Enter/Leave operations from the initial state the capacity is
never changed and the number of outstanding tickets never exceeds it. -/
theorem gate_capacity_policy (fl : Flags)
    (featuresOk targetOk hostCheckOk setupOk callListOk ipcOk : Bool)
    (openResult : Option (List Record))
    (deserialize : Record → DeserializeMode → Option CorpusProg)
    (n g : Nat)
    (hrun : mainStartup fl featuresOk targetOk openResult deserialize
        hostCheckOk setupOk callListOk ipcOk = StartupOutcome.workersSpawned n g)
    (ops : List GateOp) (s' : GateState)
    (hops : gateRun ⟨g, 0⟩ ops = some s') :
    g = 2 * fl.procs ∧ n = fl.procs ∧ s'.capacity = g ∧ s'.outstanding ≤ g := by
  have hng : n = fl.procs ∧ g = 2 * fl.procs := by
    unfold mainStartup at hrun
    cases hcor : readCorpus fl.corpus openResult deserialize with
    | none =>
      rw [hcor] at hrun
      cases featuresOk <;> cases targetOk <;> simp at hrun
    | some corpus =>
      rw [hcor] at hrun
      by_cases hgen : (!fl.generate && corpus.length == 0) = true
      · cases featuresOk <;> cases targetOk <;> simp [hgen] at hrun
      · cases featuresOk <;> cases targetOk <;> cases hostCheckOk <;>
          cases setupOk <;> cases callListOk <;> cases ipcOk <;>
          simp [hgen] at hrun <;> omega
  have hb := gateRun_bound ops s' ⟨g, 0⟩ hops (by simp)
  exact ⟨hng.2, hng.1, hb.1, hb.2⟩

/-- Witness for C8: three workers, gate capacity 6, trace
enter-enter-leave ending with one outstanding ticket. -/
theorem gate_capacity_policy_witness :
    (6 : Nat) = 2 * Flags.procs ⟨"", 3, true⟩ ∧ (3 : Nat) = Flags.procs ⟨"", 3, true⟩ ∧
    (GateState.mk 6 1).capacity = 6 ∧ (GateState.mk 6 1).outstanding ≤ 6 :=
  gate_capacity_policy ⟨"", 3, true⟩ true true true true true true
    none (fun _ _ => none) 3 6 (by decide)
    [GateOp.enter, GateOp.enter, GateOp.leave] ⟨6, 1⟩ (by decide)

/-- C9: at the call site `buildCallList(target, strings.Split(*flagSyscalls, ","))`,
when the target OS equals the controller's own OS the allow-list
resolution and intersection path is taken for every value of the
syscalls flag, because Go `strings.Split` of the empty string on ","
yields the one-element list containing the empty string, so
`len(enabled) != 0` always holds. -/
theorem allowlist_path_always_taken (goos flagSyscalls : String) :
    mainCallListPath goos goos flagSyscalls = CallListPath.allowList ∧
    goSplit "" ',' = [""] ∧
    (goSplit flagSyscalls ',').length ≠ 0 := by
  have hlen : (goSplit flagSyscalls ',').length ≠ 0 := by
    intro hz
    exact goSplitChars_ne_nil ',' flagSyscalls.data
      (List.length_eq_zero.mp (by simpa [goSplit] using hz))
  refine ⟨?_, by decide, hlen⟩
  unfold mainCallListPath buildCallListPath
  rw [if_neg (fun hne => hne rfl), if_pos hlen]

/-- C10: a failure of `ipc.MakeEnv` inside an already-started worker is
handled by `log.Fatalf`, which terminates the whole process (all
workers): the worker never reaches its loop, unlike Executor errors,
which are log-and-continue. -/
theorem makeEnv_failure_fatal (flagGenerate : Bool) (corpusLen : Nat)
    (picks : Nat → Nat) (iters : Nat) :
    workerRun false flagGenerate corpusLen picks iters
      = WorkerOutcome.fatalProcess "failed to create execution environment" ∧
    ∀ events, workerRun false flagGenerate corpusLen picks iters
      ≠ WorkerOutcome.ran events := by
  refine ⟨rfl, ?_⟩
  intro events h
  simp [workerRun] at h

end SyzStress
